import Mathlib

/-!
Verification of the Zone Scoring & Spatial Clustering engine of FixMyCity.

Shallow embedding of:
* `src/backend/app.py`, `priority_zones` (lines 322-386): grid aggregation,
  per-zone scoring and ranking of complaint records;
* `src/frontend/pages/heatmap.py`, `cluster_complaints` (lines 25-74):
  DBSCAN-based clustering with graceful degradation, and the pandas
  `groupby('cluster')` summary.

Modelling conventions:
* Python floats are modelled as rationals (`ℚ`); `round(x, 2)` is modelled by
  round-half-to-even on rationals (`pyRound2`), matching Python's `round`.
* Timestamps stay strings exactly as the code handles them; the external
  `datetime.fromisoformat` parser and the current time `datetime.now` are
  parameters (`parse : String → Option ℤ` giving epoch seconds, `now : ℤ`);
  `timedelta.days` is floor division by 86400.
* The clustering distance metric (scikit-learn's floating point haversine)
  is a parameter `dist : (ℚ × ℚ) → (ℚ × ℚ) → Except String ℚ`; an `Except`
  error models an exception raised inside the distance computation.
  scikit-learn's parameter validation (`eps > 0`, `min_samples ≥ 1`, raising
  `ValueError` from `fit`) is part of `dbscanE`.
* Python's stable `list.sort(key=…, reverse=True)` is modelled by
  `List.insertionSort` with the corresponding total preorder (any stable
  sort computes the same list).
-/

namespace FixMyCity

/-! ### Generic helpers -/

/-- `mapME f l` sequences a fallible map over a list, failing on the first
error: the `Except` analogue of `List.mapM`, written by hand so that its
equations are directly usable in proofs. -/
def mapME (f : α → Except String β) : List α → Except String (List β)
  | [] => .ok []
  | a :: as =>
    match f a with
    | .error e => .error e
    | .ok b =>
      match mapME f as with
      | .error e => .error e
      | .ok bs => .ok (b :: bs)

theorem mapME_ok_length {f : α → Except String β} :
    ∀ {l : List α} {bs : List β}, mapME f l = .ok bs → bs.length = l.length := by
  intro l
  induction l with
  | nil => intro bs h; simp [mapME] at h; simp [← h]
  | cons a as ih =>
    intro bs h
    simp only [mapME] at h
    cases hfa : f a with
    | error e => rw [hfa] at h; exact absurd h (by simp)
    | ok b =>
      rw [hfa] at h
      cases hrest : mapME f as with
      | error e => rw [hrest] at h; exact absurd h (by simp)
      | ok bs' =>
        rw [hrest] at h
        cases h
        simpa using ih hrest

theorem mapME_ok_mem {f : α → Except String β} :
    ∀ {l : List α} {bs : List β}, mapME f l = .ok bs → ∀ b ∈ bs, ∃ a ∈ l, f a = .ok b := by
  intro l
  induction l with
  | nil => intro bs h; simp [mapME] at h; subst h; simp
  | cons a as ih =>
    intro bs h b hb
    simp only [mapME] at h
    cases hfa : f a with
    | error e => rw [hfa] at h; exact absurd h (by simp)
    | ok b' =>
      rw [hfa] at h
      cases hrest : mapME f as with
      | error e => rw [hrest] at h; exact absurd h (by simp)
      | ok bs' =>
        rw [hrest] at h
        cases h
        rcases List.mem_cons.mp hb with hb | hb
        · exact ⟨a, List.mem_cons_self a as, by rw [hfa, hb]⟩
        · obtain ⟨a', ha', hfa'⟩ := ih hrest b hb
          exact ⟨a', List.mem_cons_of_mem a ha', hfa'⟩

/-- Append a key if it has not been seen yet. -/
def addKey [DecidableEq α] (ks : List α) (k : α) : List α :=
  if k ∈ ks then ks else ks ++ [k]

/-- Left fold accumulating each value the first time it is seen. -/
def firstOccsFrom [DecidableEq α] (acc : List α) (l : List α) : List α :=
  l.foldl addKey acc

/-- Keys in order of first appearance (the iteration order of a Python
`dict` / `defaultdict` keyed by these values, and of `pandas` uniques). -/
def firstOccs [DecidableEq α] (l : List α) : List α := firstOccsFrom [] l

theorem firstOccsFrom_mem [DecidableEq α] (l : List α) :
    ∀ (acc : List α) (x : α), (x ∈ firstOccsFrom acc l) ↔ (x ∈ acc ∨ x ∈ l) := by
  induction l with
  | nil => intro acc x; simp [firstOccsFrom]
  | cons k ks ih =>
    intro acc x
    have hstep : firstOccsFrom acc (k :: ks) = firstOccsFrom (addKey acc k) ks := rfl
    rw [hstep, ih]
    unfold addKey
    by_cases hk : k ∈ acc
    · simp only [if_pos hk, List.mem_cons]
      constructor
      · rintro (h | h) <;> tauto
      · rintro (h | h | h)
        · exact Or.inl h
        · exact Or.inl (h ▸ hk)
        · exact Or.inr h
    · simp only [if_neg hk, List.mem_append, List.mem_singleton, List.mem_cons]
      tauto

theorem mem_firstOccs [DecidableEq α] (l : List α) (x : α) :
    x ∈ firstOccs l ↔ x ∈ l := by
  unfold firstOccs
  rw [firstOccsFrom_mem]
  simp

/-- Python's `round` (banker's rounding) on a rational. -/
def roundHalfEven (q : ℚ) : ℤ :=
  let f := ⌊q⌋
  let r := q - (f : ℚ)
  if r < 1 / 2 then f
  else if 1 / 2 < r then f + 1
  else if f % 2 = 0 then f else f + 1

/-- `round(x, 2)` from Python, on the rational model of a float. -/
def pyRound2 (q : ℚ) : ℚ := (roundHalfEven (q * 100) : ℚ) / 100

/-- `l[:k]` for a Python `int` bound `k` (which may be negative or exceed the
length: Python slicing never raises). -/
def pySlice (l : List α) (k : ℤ) : List α :=
  if 0 ≤ k then l.take k.toNat else l.take ((l.length : ℤ) + k).toNat

theorem pySlice_eq_take (l : List α) (k : ℤ) :
    ∃ n : ℕ, pySlice l k = l.take n := by
  unfold pySlice
  by_cases h : 0 ≤ k
  · exact ⟨k.toNat, by rw [if_pos h]⟩
  · exact ⟨((l.length : ℤ) + k).toNat, by rw [if_neg h]⟩

/-- Python's `max(...)` over a nonempty iterable with first element `a` and
remaining elements `l`: keeps the current value unless a strictly greater
one appears. -/
def pyMax [LinearOrder α] (a : α) (l : List α) : α :=
  l.foldl (fun m x => if m < x then x else m) a

/-- Python's `min(...)` over a nonempty iterable. -/
def pyMin [LinearOrder α] (a : α) (l : List α) : α :=
  l.foldl (fun m x => if x < m then x else m) a

theorem pyMin_le [LinearOrder α] (l : List α) :
    ∀ a : α, pyMin a l ≤ a ∧ ∀ x ∈ l, pyMin a l ≤ x := by
  induction l with
  | nil => intro a; simp [pyMin]
  | cons y ys ih =>
    intro a
    have step : pyMin a (y :: ys) = pyMin (if y < a then y else a) ys := rfl
    constructor
    · rw [step]
      refine le_trans (ih _).1 ?_
      split <;> simp [le_of_lt, *]
    · intro x hx
      rw [step]
      rcases List.mem_cons.mp hx with hx | hx
      · refine le_trans (ih _).1 ?_
        subst hx
        split
        · exact le_refl _
        · exact le_of_not_lt (by assumption)
      · exact (ih _).2 x hx

/-! ### Data model (`src/backend/app.py`, rows selected at lines 326-330)

Only rows with non-null coordinates reach the zone computation (the SQL
`WHERE latitude IS NOT NULL AND longitude IS NOT NULL`), so `latitude` and
`longitude` are total here. `area_importance` is the raw nullable column. -/

structure Complaint where
  id : ℕ
  category : String
  severity : String
  latitude : ℚ
  longitude : ℚ
  area_name : String
  timestamp : String
  status : String
  area_importance : Option String
deriving DecidableEq, Repr

/-- The per-zone member dict built at `app.py` lines 345-351; `area_importance`
is `r["area_importance"] or "normal"` (Python `or`: `None` and `""` both fall
back to `"normal"`). -/
structure Member where
  id : ℕ
  severity : String
  timestamp : String
  status : String
  area_importance : String
deriving DecidableEq, Repr

def toMember (r : Complaint) : Member :=
  { id := r.id
    severity := r.severity
    timestamp := r.timestamp
    status := r.status
    area_importance :=
      match r.area_importance with
      | none => "normal"
      | some s => if s = "" then "normal" else s }

/-- `severity_weight` table, `app.py` line 333; `.get(sev, 1)` default. -/
def severityWeight (s : String) : ℚ :=
  if s = "low" then 1
  else if s = "medium" then 2
  else if s = "high" then 3
  else if s = "critical" then 4
  else 1

/-- `area_importance_weight` table, `app.py` line 335; `.get(tok, 1)` default. -/
def areaImportanceWeight (s : String) : ℚ :=
  if s = "low" then 1 / 2
  else if s = "normal" then 1
  else if s = "high" then 2
  else if s = "critical" then 3
  else 1

/-- Grid key `(round(lat, 2), round(lon, 2))`, `app.py` line 344. -/
def zoneKey (r : Complaint) : ℚ × ℚ := (pyRound2 r.latitude, pyRound2 r.longitude)

/-! ### Zone aggregation (`app.py` lines 341-351)

`zone_complaints` is a `defaultdict(list)`: iteration preserves first-insertion
order of keys, and each bucket holds its members in input order. We model it
as an association list built exactly that way. -/

def insertGroup (acc : List ((ℚ × ℚ) × List Member)) (k : ℚ × ℚ) (m : Member) :
    List ((ℚ × ℚ) × List Member) :=
  match acc with
  | [] => [(k, [m])]
  | g :: rest => if g.1 = k then (g.1, g.2 ++ [m]) :: rest else g :: insertGroup rest k m

def groupZones (records : List Complaint) : List ((ℚ × ℚ) × List Member) :=
  records.foldl (fun acc r => insertGroup acc (zoneKey r) (toMember r)) []

/-- The members stored under key `k` (empty if the key is absent). -/
def findBucket (l : List ((ℚ × ℚ) × List Member)) (k : ℚ × ℚ) : List Member :=
  match l.find? (fun g => decide (g.1 = k)) with
  | none => []
  | some g => g.2

/-- Oldest timestamp in a zone: `min(c["timestamp"] for c in complaints)`,
`app.py` line 362 — Python string `min`, i.e. lexicographic minimum. -/
def oldestTs : List Member → String
  | [] => ""
  | m :: ms => pyMin m.timestamp (ms.map (·.timestamp))

/-- Lexicographically maximal severity token of a zone:
`max(c["severity"] for c in complaints)`, `app.py` line 356 — Python string
`max`, i.e. lexicographic maximum (NOT maximum by table weight). -/
def maxSeverityTok : List Member → String
  | [] => ""
  | m :: ms => pyMax m.severity (ms.map (·.severity))

/-- Lexicographically maximal area-importance token,
`max(c["area_importance"] for c in complaints)`, `app.py` line 359. -/
def maxAreaTok : List Member → String
  | [] => ""
  | m :: ms => pyMax m.area_importance (ms.map (·.area_importance))

/-- One entry of the `zones` list built at `app.py` lines 374-382. -/
structure ZoneResult where
  latitude : ℚ
  longitude : ℚ
  complaint_count : ℕ
  priority_score : ℚ
  severity : String
  area_importance : String
  days_unresolved : ℤ
deriving DecidableEq, Repr

/-- Per-zone scoring, `app.py` lines 354-382. `parse` models
`datetime.fromisoformat` applied to `oldest.replace("Z", "+00:00")` (returning
epoch seconds, `none` on a parse failure — the `try/except` at lines 363-368);
`now` models `datetime.now(timezone.utc)` in epoch seconds; `.days` of a
timedelta is floor division by 86400. -/
def zoneResult (parse : String → Option ℤ) (now : ℤ) (k : ℚ × ℚ)
    (complaints : List Member) : ZoneResult :=
  let n := complaints.length
  let max_severity := maxSeverityTok complaints
  let sw := severityWeight max_severity
  let max_area_importance := maxAreaTok complaints
  let aiw := areaImportanceWeight max_area_importance
  let oldest := oldestTs complaints
  let days : ℤ :=
    match parse oldest with
    | some t => max 0 ((now - t).fdiv 86400)
    | none => 0
  let unresolved := complaints.countP (fun c => c.status == "unresolved")
  let days_unresolved := if unresolved ≠ 0 then days else 0
  { latitude := k.1
    longitude := k.2
    complaint_count := n
    priority_score :=
      pyRound2 ((n : ℚ) * 2 + sw * 3 + (days_unresolved : ℚ) * 1.5 + aiw * 2)
    severity := max_severity
    area_importance := max_area_importance
    days_unresolved := days_unresolved }

/-- The unranked `zones` list, in `defaultdict` iteration order. -/
def zonesList (parse : String → Option ℤ) (now : ℤ) (records : List Complaint) :
    List ZoneResult :=
  (groupZones records).map (fun g => zoneResult parse now g.1 g.2)

/-- `zones.sort(key=lambda z: z["priority_score"], reverse=True)` — a stable
sort placing higher scores first (`app.py` line 384). -/
def zoneGE (a b : ZoneResult) : Prop := b.priority_score ≤ a.priority_score

instance : DecidableRel zoneGE := fun a b =>
  inferInstanceAs (Decidable (b.priority_score ≤ a.priority_score))

instance : IsTotal ZoneResult zoneGE := ⟨fun a b => le_total b.priority_score a.priority_score⟩

instance : IsTrans ZoneResult zoneGE := ⟨fun _ _ _ h h' => le_trans h' h⟩

def rankedZones (parse : String → Option ℤ) (now : ℤ) (records : List Complaint) :
    List ZoneResult :=
  (zonesList parse now records).insertionSort zoneGE

/-- The HTTP handler body, `app.py` lines 384-386: sort, read `top` (any int,
no validation), slice, and answer 200. The `Except` error channel is where a
fail-fast validation error would surface; the code never uses it. -/
def priorityZonesHandler (parse : String → Option ℤ) (now : ℤ)
    (records : List Complaint) (top : ℤ) : Except String (List ZoneResult) :=
  .ok (pySlice (rankedZones parse now records) top)

/-! ### DBSCAN (`heatmap.py` lines 37-44)

Modelled from the spec: `sklearn.cluster.DBSCAN` is an external library, not
part of this repository's sources.  Following spec §4.4, a point is a core
point if at least `min_samples` points (itself included) lie within distance
`eps`; clusters are grown from unvisited core points by depth-first expansion,
absorbing reachable non-core points; everything else keeps the noise label
`-1`.  This mirrors scikit-learn's `dbscan_inner`: labels start at `-1`,
cluster ids are assigned `0, 1, 2, …` in order of the first core point
scanned.  scikit-learn's `fit` also validates `eps > 0` and
`min_samples ≥ 1`, raising `ValueError` otherwise; the distance metric is a
fallible parameter (floating-point haversine in the real program). -/

/-- Indices (starting at `i`) of the distances in `ds` that are `≤ eps`:
the neighborhood of a point, itself included since `d(p,p) = 0`. -/
def withinIdx (eps : ℚ) : List ℚ → ℕ → List ℕ
  | [], _ => []
  | d :: ds, i =>
    if d ≤ eps then i :: withinIdx eps ds (i + 1) else withinIdx eps ds (i + 1)

theorem withinIdx_length_le (eps : ℚ) :
    ∀ (ds : List ℚ) (i : ℕ), (withinIdx eps ds i).length ≤ ds.length := by
  intro ds
  induction ds with
  | nil => intro i; simp [withinIdx]
  | cons d ds ih =>
    intro i
    unfold withinIdx
    split
    · simpa using Nat.succ_le_succ (ih (i + 1))
    · exact le_trans (ih (i + 1)) (Nat.le_succ _)

/-- Neighborhood lists of every point (`sklearn`'s `radius_neighbors`). -/
def nbrsOf (dist : (ℚ × ℚ) → (ℚ × ℚ) → Except String ℚ) (pts : List (ℚ × ℚ))
    (eps : ℚ) : Except String (List (List ℕ)) :=
  mapME
    (fun p =>
      match mapME (dist p) pts with
      | .error e => .error e
      | .ok ds => .ok (withinIdx eps ds 0))
    pts

/-- Number of points still labeled noise; the termination measure of the
depth-first expansion. -/
def countNoise (labels : List ℤ) : ℕ := labels.countP (fun x => decide (x = -1))

theorem countNoise_set_lt (labels : List ℤ) (i : ℕ) (lab : ℕ)
    (h : labels.getD i 0 = -1) :
    countNoise (labels.set i (lab : ℤ)) < countNoise labels := by
  induction labels generalizing i with
  | nil => simp [List.getD] at h
  | cons x xs ih =>
    cases i with
    | zero =>
      simp only [List.getD_cons_zero] at h
      subst h
      simp only [List.set_cons_zero, countNoise, List.countP_cons]
      have hlab : (decide ((lab : ℤ) = -1)) = false := by
        simp only [decide_eq_false_iff_not]
        omega
      simp [hlab]
    | succ j =>
      simp only [List.getD_cons_succ] at h
      simp only [List.set_cons_succ, countNoise, List.countP_cons]
      have := ih j h
      unfold countNoise at this
      omega

/-- The depth-first expansion of one cluster: scikit-learn's `dbscan_inner`
inner `while` loop.  `labels.getD i 0 = -1` is `labels[i] == -1`; when the
current point is a core point, its still-unlabeled neighbors are pushed on
the stack (LIFO, matching the C++ `vector` used as a stack). -/
def dfs (nb : List (List ℕ)) (core : List Bool) (lab : ℕ)
    (labels : List ℤ) (i : ℕ) (stack : List ℕ) : List ℤ :=
  if h : labels.getD i 0 = -1 then
    let labels' := labels.set i (lab : ℤ)
    let stack' :=
      if core.getD i false then
        ((nb.getD i []).filter (fun v => decide (labels'.getD v 0 = -1))).reverse ++ stack
      else stack
    match stack' with
    | [] => labels'
    | j :: rest => dfs nb core lab labels' j rest
  else
    match stack with
    | [] => labels
    | j :: rest => dfs nb core lab labels j rest
termination_by (countNoise labels, stack.length)
decreasing_by
  · exact Prod.Lex.left _ _ (countNoise_set_lt labels i lab h)
  · exact Prod.Lex.right _ (Nat.lt_succ_self _)

/-- One step of the outer `for i in range(n)` loop of `dbscan_inner`: start a
new cluster at every still-unlabeled core point. -/
def dbscanStep (nb : List (List ℕ)) (core : List Bool) (st : List ℤ × ℕ) (i : ℕ) :
    List ℤ × ℕ :=
  if st.1.getD i 0 = -1 ∧ core.getD i false = true then
    (dfs nb core st.2 st.1 i [], st.2 + 1)
  else st

def dbscanRun (nb : List (List ℕ)) (core : List Bool) (n : ℕ) : List ℤ :=
  ((List.range n).foldl (dbscanStep nb core) (List.replicate n (-1), 0)).1

/-- `DBSCAN(eps=eps, min_samples=min_samples, metric='haversine').fit(...)`:
parameter validation, neighborhoods, core mask, then label assignment. -/
def dbscanE (dist : (ℚ × ℚ) → (ℚ × ℚ) → Except String ℚ) (pts : List (ℚ × ℚ))
    (eps : ℚ) (minPts : ℕ) : Except String (List ℤ) :=
  if eps ≤ 0 then .error "eps must be positive"
  else if minPts = 0 then .error "min_samples must be positive"
  else
    match nbrsOf dist pts eps with
    | .error e => .error e
    | .ok nbl =>
      .ok (dbscanRun nbl (nbl.map fun nl => decide (minPts ≤ nl.length)) pts.length)

/-! ### Cluster summary (`heatmap.py` lines 46-63)

`df_clustered.groupby('cluster').agg(latitude mean, longitude mean, id count)`
plus the dominant severity.  A pandas `groupby` emits one row per distinct
label — including the noise label `-1` when present — with the group keys
sorted ascending. -/

structure ClusterSummary where
  latitude : ℚ
  longitude : ℚ
  complaint_count : ℕ
  dominant_severity : String
deriving DecidableEq, Repr

/-- `get_dominant_severity` (`heatmap.py` lines 47-53):
`value_counts().index[0]` is the most frequent value, ties broken by first
appearance; `'low'` for an empty series. -/
def domSev (sevs : List String) : String :=
  match firstOccs sevs with
  | [] => "low"
  | s :: rest => rest.foldl (fun m x => if sevs.count m < sevs.count x then x else m) s

def summaryAt (dfc : List (Complaint × ℤ)) (l : ℤ) : ClusterSummary :=
  let mem := (dfc.filter (fun x => decide (x.2 = l))).map Prod.fst
  { latitude := (mem.map (·.latitude)).sum / (mem.length : ℚ)
    longitude := (mem.map (·.longitude)).sum / (mem.length : ℚ)
    complaint_count := mem.length
    dominant_severity := domSev (mem.map (·.severity)) }

/-- `cluster_stats`: one summary row per label occurring in `df_clustered`,
keys in ascending order (pandas `groupby` default `sort=True`). -/
def clusterStats (dfc : List (Complaint × ℤ)) : List (ℤ × ClusterSummary) :=
  ((firstOccs (dfc.map Prod.snd)).insertionSort (· ≤ ·)).map fun l => (l, summaryAt dfc l)

/-- The body of the `try:` block of `cluster_complaints`
(`heatmap.py` lines 27-65): the `len(df) < 2` early return with an
explicitly empty stats frame, otherwise DBSCAN followed by the groupby
summary.  An `Except.error` is an exception escaping the block. -/
def clusterInner (dist : (ℚ × ℚ) → (ℚ × ℚ) → Except String ℚ)
    (df : List Complaint) (eps : ℚ) (minPts : ℕ) :
    Except String (List (Complaint × ℤ) × List (ℤ × ClusterSummary)) :=
  if df.length < 2 then .ok (df.map (fun c => (c, -1)), [])
  else
    match dbscanE dist (df.map fun c => (c.latitude, c.longitude)) eps minPts with
    | .error e => .error e
    | .ok labels => .ok (df.zip labels, clusterStats (df.zip labels))

/-- `cluster_complaints` (`heatmap.py` lines 25-74): any exception from the
body is caught (`except` at line 67), replaced by an all-noise labeling with
an empty stats frame, and reported through `st.warning` — the final `Bool` is
that warning flag. -/
def cluster_complaints (dist : (ℚ × ℚ) → (ℚ × ℚ) → Except String ℚ)
    (df : List Complaint) (eps : ℚ) (minPts : ℕ) :
    (List (Complaint × ℤ) × List (ℤ × ClusterSummary)) × Bool :=
  match clusterInner dist df eps minPts with
  | .ok r => (r, false)
  | .error _ => ((df.map (fun c => (c, -1)), []), true)

/-! ### Concrete fixtures for witnesses and counterexamples -/

/-- A parse function under which every timestamp fails to parse. -/
def parse0 : String → Option ℤ := fun _ => none

/-- A parse function recognizing the fixtures' timestamps (epoch seconds). -/
def parse1 : String → Option ℤ := fun s =>
  if s = "2024-01-01T00:00:00Z" then some 0
  else if s = "2024-01-02T00:00:00Z" then some 86400
  else if s = "2024-01-03T00:00:00Z" then some 172800
  else none

def exA : Complaint :=
  { id := 1, category := "pothole", severity := "critical", latitude := 13.0821,
    longitude := 80.2701, area_name := "", timestamp := "2024-01-01T00:00:00Z",
    status := "resolved", area_importance := some "critical" }

def exB : Complaint :=
  { id := 2, category := "garbage", severity := "medium", latitude := 13.0829,
    longitude := 80.2704, area_name := "", timestamp := "2024-01-02T00:00:00Z",
    status := "resolved", area_importance := some "normal" }

def exC : Complaint :=
  { id := 3, category := "sewage", severity := "low", latitude := 13.09,
    longitude := 80.27, area_name := "", timestamp := "2024-01-03T00:00:00Z",
    status := "unresolved", area_importance := none }

/-- A total stand-in metric (constant 0): used on inputs whose clustering
outcome does not depend on any distance value. -/
def dist0 : (ℚ × ℚ) → (ℚ × ℚ) → Except String ℚ := fun _ _ => .ok 0

/-- A metric whose evaluation raises (models numerical failure inside the
distance computation). -/
def distErr : (ℚ × ℚ) → (ℚ × ℚ) → Except String ℚ := fun _ _ =>
  .error "numerical instability"

/-! ### Evaluation lemmas for the concrete fixtures -/

theorem zkA : zoneKey exA = (13.08, 80.27) := by
  norm_num [zoneKey, exA, pyRound2, roundHalfEven, Prod.ext_iff]

theorem zkB : zoneKey exB = (13.08, 80.27) := by
  norm_num [zoneKey, exB, pyRound2, roundHalfEven, Prod.ext_iff]

theorem zkC : zoneKey exC = (13.09, 80.27) := by
  norm_num [zoneKey, exC, pyRound2, roundHalfEven, Prod.ext_iff]

theorem groupAB : groupZones [exA, exB] = [((13.08, 80.27), [toMember exA, toMember exB])] := by
  simp [groupZones, zkA, zkB, insertGroup]

theorem zrAB_eval :
    zoneResult parse0 0 (13.08, 80.27) [toMember exA, toMember exB] =
      { latitude := 13.08, longitude := 80.27, complaint_count := 2, priority_score := 12,
        severity := "medium", area_importance := "normal", days_unresolved := 0 } := by
  simp +decide [zoneResult, maxSeverityTok, maxAreaTok, oldestTs, pyMax, pyMin, toMember,
    exA, exB, parse0, severityWeight, areaImportanceWeight, ZoneResult.mk.injEq]
  norm_num [pyRound2, roundHalfEven]

/-! ### C1 — severity/area "maximum" (app.py lines 356-360) -/

/-- C1: the claim states that `severity_weight` (resp. `area_weight`) is the
table weight of the member whose token has the highest TABLE weight, maximum
taken by table weight and not lexicographically.  The code instead computes
`max(...)` over the raw token strings — a lexicographic maximum.  Evaluating
the code on a zone holding a "critical" and a "medium" member (areas
"critical" and "normal"): the zone reports severity "medium" (weight 2, not
4) and area "normal" (weight 1, not 3), so its score is
2*2 + 2*3 + 0 + 1*2 = 12, where the claim requires 2*2 + 4*3 + 0 + 3*2 = 22. -/
theorem C1_lexicographic_max_eval :
    (zonesList parse0 0 [exA, exB]).map
        (fun z => (z.severity, z.area_importance, z.priority_score)) =
      [("medium", "normal", 12)] ∧
    severityWeight "medium" = 2 ∧ severityWeight "critical" = 4 ∧
    areaImportanceWeight "normal" = 1 ∧ areaImportanceWeight "critical" = 3 := by
  refine ⟨?_, by simp +decide [severityWeight], by simp +decide [severityWeight],
    by simp +decide [areaImportanceWeight], by simp +decide [areaImportanceWeight]⟩
  rw [zonesList, groupAB]
  simp [zrAB_eval]

/-! ### C2 — the priority-score formula (app.py lines 372-382) -/

/-- C2: every zone in the output of the priority-zones operation reports
`priority_score = round2(count*2 + severity_weight*3 + days_unresolved*1.5 +
area_weight*2)`, the weights being the table weights of the zone's reported
severity and area-importance tokens. -/
theorem C2_score_formula (parse : String → Option ℤ) (now : ℤ)
    (records : List Complaint) (top : ℤ) (z : ZoneResult)
    (hz : z ∈ pySlice (rankedZones parse now records) top) :
    z.priority_score =
      pyRound2 ((z.complaint_count : ℚ) * 2 + severityWeight z.severity * 3 +
        (z.days_unresolved : ℚ) * 1.5 + areaImportanceWeight z.area_importance * 2) := by
  obtain ⟨n, hn⟩ := pySlice_eq_take (rankedZones parse now records) top
  rw [hn] at hz
  have hz' : z ∈ rankedZones parse now records := List.mem_of_mem_take hz
  have hz'' : z ∈ zonesList parse now records :=
    (List.mem_insertionSort zoneGE).mp hz'
  obtain ⟨g, _, hg⟩ := List.mem_map.mp hz''
  subst hg
  rfl

theorem groupA : groupZones [exA] = [((13.08, 80.27), [toMember exA])] := by
  simp [groupZones, zkA, insertGroup]

theorem memA :
    zoneResult parse0 0 (zoneKey exA) [toMember exA] ∈
      pySlice (rankedZones parse0 0 [exA]) 5 := by
  simp [pySlice, rankedZones, zonesList, groupA, List.insertionSort, List.orderedInsert, zkA]

theorem C2_score_formula_witness :
    zoneResult parse0 0 (zoneKey exA) [toMember exA] ∈
      pySlice (rankedZones parse0 0 [exA]) 5 ∧
    (zoneResult parse0 0 (zoneKey exA) [toMember exA]).priority_score =
      pyRound2
        (((zoneResult parse0 0 (zoneKey exA) [toMember exA]).complaint_count : ℚ) * 2 +
          severityWeight (zoneResult parse0 0 (zoneKey exA) [toMember exA]).severity * 3 +
          ((zoneResult parse0 0 (zoneKey exA) [toMember exA]).days_unresolved : ℚ) * 1.5 +
          areaImportanceWeight (zoneResult parse0 0 (zoneKey exA) [toMember exA]).area_importance * 2) :=
  ⟨memA, C2_score_formula parse0 0 [exA] 5 _ memA⟩

/-! ### C3 — ranking order and top-N truncation (app.py lines 384-386) -/

/-- C3: for every snapshot and every `top_n ≥ 1`, the returned sequence is
sorted non-increasing by priority_score, has length at most `top_n`, and has
length strictly below `top_n` only when fewer than `top_n` zones exist — in
which case it is the whole ranked zone list, a permutation of all zones. -/
theorem C3_ranking (parse : String → Option ℤ) (now : ℤ) (records : List Complaint)
    (top : ℤ) (htop : 1 ≤ top) :
    List.Pairwise (fun a b => b.priority_score ≤ a.priority_score)
        (pySlice (rankedZones parse now records) top) ∧
    ((pySlice (rankedZones parse now records) top).length : ℤ) ≤ top ∧
    (((pySlice (rankedZones parse now records) top).length : ℤ) < top →
      ((zonesList parse now records).length : ℤ) < top ∧
      pySlice (rankedZones parse now records) top = rankedZones parse now records ∧
      List.Perm (pySlice (rankedZones parse now records) top) (zonesList parse now records)) := by
  have h0 : (0 : ℤ) ≤ top := le_trans (by norm_num) htop
  have hslice : pySlice (rankedZones parse now records) top =
      (rankedZones parse now records).take top.toNat := by
    unfold pySlice
    rw [if_pos h0]
  have hsorted : List.Pairwise zoneGE (rankedZones parse now records) :=
    List.sorted_insertionSort zoneGE (zonesList parse now records)
  have hlenr : (rankedZones parse now records).length = (zonesList parse now records).length :=
    List.length_insertionSort zoneGE (zonesList parse now records)
  have hlen : (pySlice (rankedZones parse now records) top).length =
      min top.toNat (rankedZones parse now records).length := by
    rw [hslice, List.length_take]
  refine ⟨?_, ?_, ?_⟩
  · rw [hslice]
    exact List.Pairwise.sublist (List.take_sublist _ _) hsorted
  · rw [hlen]
    have : min top.toNat (rankedZones parse now records).length ≤ top.toNat := min_le_left _ _
    omega
  · intro hlt
    rw [hlen] at hlt
    have hlt' : (rankedZones parse now records).length < top.toNat := by omega
    have hall : (rankedZones parse now records).take top.toNat =
        rankedZones parse now records :=
      List.take_of_length_le (le_of_lt hlt')
    refine ⟨by omega, by rw [hslice, hall], ?_⟩
    rw [hslice, hall]
    exact List.perm_insertionSort zoneGE (zonesList parse now records)

theorem C3_ranking_witness :
    List.Pairwise (fun a b => b.priority_score ≤ a.priority_score)
        (pySlice (rankedZones parse0 0 [exA]) 1) ∧
    ((pySlice (rankedZones parse0 0 [exA]) 1).length : ℤ) ≤ 1 ∧
    (((pySlice (rankedZones parse0 0 [exA]) 1).length : ℤ) < 1 →
      ((zonesList parse0 0 [exA]).length : ℤ) < 1 ∧
      pySlice (rankedZones parse0 0 [exA]) 1 = rankedZones parse0 0 [exA] ∧
      List.Perm (pySlice (rankedZones parse0 0 [exA]) 1) (zonesList parse0 0 [exA])) :=
  C3_ranking parse0 0 [exA] 1 (by norm_num)

/-! ### C6 — grid bucketing (app.py lines 341-351) -/

theorem findBucket_nil (k' : ℚ × ℚ) : findBucket [] k' = [] := rfl

theorem findBucket_cons (g : (ℚ × ℚ) × List Member) (l : List ((ℚ × ℚ) × List Member))
    (k' : ℚ × ℚ) :
    findBucket (g :: l) k' = if g.1 = k' then g.2 else findBucket l k' := by
  by_cases h : g.1 = k' <;> simp [findBucket, List.find?, h]

theorem insertGroup_nil (k : ℚ × ℚ) (m : Member) : insertGroup [] k m = [(k, [m])] := rfl

theorem insertGroup_cons (g : (ℚ × ℚ) × List Member) (rest : List ((ℚ × ℚ) × List Member))
    (k : ℚ × ℚ) (m : Member) :
    insertGroup (g :: rest) k m =
      if g.1 = k then (g.1, g.2 ++ [m]) :: rest else g :: insertGroup rest k m := by
  by_cases h : g.1 = k <;> simp [insertGroup, h]

theorem findBucket_insertGroup (acc : List ((ℚ × ℚ) × List Member)) (k k' : ℚ × ℚ)
    (m : Member) :
    findBucket (insertGroup acc k m) k' =
      if k' = k then findBucket acc k' ++ [m] else findBucket acc k' := by
  induction acc with
  | nil =>
    rw [insertGroup_nil, findBucket_cons, findBucket_nil]
    by_cases hk : k' = k
    · simp [hk]
    · have hk2 : ¬ k = k' := fun h => hk (Eq.symm h)
      simp [hk, hk2]
  | cons g rest ih =>
    rw [insertGroup_cons]
    by_cases hg : g.1 = k
    · rw [if_pos hg, findBucket_cons, findBucket_cons]
      by_cases hk : g.1 = k'
      · have hkk : k' = k := by rw [← hk, hg]
        simp [hk, hkk]
      · have hkk : ¬ k' = k := by
          intro h
          exact hk (by rw [hg, ← h])
        simp [hk, hkk]
    · rw [if_neg hg, findBucket_cons, findBucket_cons, ih]
      by_cases hk : g.1 = k'
      · have hkk : ¬ k' = k := by
          intro h
          exact hg (by rw [hk, h])
        simp [hk, hkk]
      · simp [hk]

theorem groupZones_bucket (records : List Complaint) :
    ∀ (acc : List ((ℚ × ℚ) × List Member)) (k : ℚ × ℚ),
      findBucket
          (records.foldl (fun a r => insertGroup a (zoneKey r) (toMember r)) acc) k =
        findBucket acc k ++
          (records.filter (fun r => decide (zoneKey r = k))).map toMember := by
  induction records with
  | nil => intro acc k; simp
  | cons r rs ih =>
    intro acc k
    simp only [List.foldl_cons]
    rw [ih, findBucket_insertGroup]
    by_cases hk : k = zoneKey r
    · rw [if_pos hk]
      have hrk : zoneKey r = k := hk.symm
      have : (List.filter (fun r => decide (zoneKey r = k)) (r :: rs)) =
          r :: List.filter (fun r => decide (zoneKey r = k)) rs := by
        simp [List.filter_cons, hrk]
      rw [this]
      simp
    · rw [if_neg hk]
      have hrk : ¬ zoneKey r = k := fun h => hk h.symm
      have : (List.filter (fun r => decide (zoneKey r = k)) (r :: rs)) =
          List.filter (fun r => decide (zoneKey r = k)) rs := by
        simp [List.filter_cons, hrk]
      rw [this]

/-- C6: every record is bucketed under the grid key
`(round(lat, 2), round(lon, 2))`; concretely, complaints at
(13.0821, 80.2701) and (13.0829, 80.2704) share the zone key (13.08, 80.27)
while a complaint at (13.09, 80.27) gets a different key, and grouping the
three produces exactly those two zones. -/
theorem C6_grid_bucketing :
    (∀ (records : List Complaint) (r : Complaint), r ∈ records →
      toMember r ∈ findBucket (groupZones records) (zoneKey r)) ∧
    zoneKey exA = (13.08, 80.27) ∧ zoneKey exB = (13.08, 80.27) ∧
    zoneKey exC = (13.09, 80.27) ∧ zoneKey exC ≠ zoneKey exA ∧
    groupZones [exA, exB, exC] =
      [((13.08, 80.27), [toMember exA, toMember exB]),
       ((13.09, 80.27), [toMember exC])] := by
  refine ⟨?_, zkA, zkB, zkC, ?_, ?_⟩
  · intro records r hr
    have hb := groupZones_bucket records [] (zoneKey r)
    unfold groupZones
    rw [hb, findBucket_nil, List.nil_append]
    exact List.mem_map.mpr ⟨r, List.mem_filter.mpr ⟨hr, by simp⟩, rfl⟩
  · rw [zkA, zkC]
    intro h
    have := congrArg Prod.fst h
    norm_num at this
  · simp [groupZones, zkA, zkB, zkC, insertGroup]
    norm_num

theorem C6_grid_bucketing_witness :
    toMember exA ∈ findBucket (groupZones [exA]) (zoneKey exA) :=
  C6_grid_bucketing.1 [exA] exA (List.mem_singleton.mpr rfl)

/-! ### C5 — days_unresolved (app.py lines 361-370) -/

/-- C5: if a zone has at least one member with status "unresolved",
`days_unresolved` is the age in whole days — `now` minus timestamp, floored,
clamped at 0 — of the oldest member of the zone (the member with the minimal
timestamp, regardless of that member's own status); with no unresolved member
it is 0; and if the oldest timestamp fails to parse the age contributes 0
instead of raising. -/
theorem C5_days_unresolved (parse : String → Option ℤ) (now : ℤ) (k : ℚ × ℚ)
    (members : List Member) (hne : members ≠ []) :
    (∀ m ∈ members, oldestTs members ≤ m.timestamp) ∧
    (members.countP (fun c => c.status == "unresolved") = 0 →
      (zoneResult parse now k members).days_unresolved = 0) ∧
    (members.countP (fun c => c.status == "unresolved") ≠ 0 →
      (∀ t, parse (oldestTs members) = some t →
        (zoneResult parse now k members).days_unresolved = max 0 ((now - t).fdiv 86400)) ∧
      (parse (oldestTs members) = none →
        (zoneResult parse now k members).days_unresolved = 0)) ∧
    0 ≤ (zoneResult parse now k members).days_unresolved := by
  refine ⟨?_, ?_, ?_, ?_⟩
  · intro m hm
    match members, hne with
    | m0 :: ms, _ =>
      rcases List.mem_cons.mp hm with hm | hm
      · subst hm
        exact (pyMin_le (ms.map (·.timestamp)) m.timestamp).1
      · exact (pyMin_le (ms.map (·.timestamp)) m0.timestamp).2 m.timestamp
          (List.mem_map.mpr ⟨m, hm, rfl⟩)
  · intro hcnt
    simp [zoneResult, hcnt]
  · intro hcnt
    constructor
    · intro t ht
      simp [zoneResult, hcnt, ht]
    · intro ht
      simp [zoneResult, hcnt, ht]
  · by_cases hcnt : members.countP (fun c => c.status == "unresolved") = 0
    · simp [zoneResult, hcnt]
    · cases ht : parse (oldestTs members) with
      | none => simp [zoneResult, hcnt, ht]
      | some t =>
        simp only [zoneResult, hcnt, ht, if_pos, ne_eq, not_false_iff]
        simp [hcnt]

theorem C5_days_unresolved_witness :
    (∀ m ∈ [toMember exC], oldestTs [toMember exC] ≤ m.timestamp) ∧
    ([toMember exC].countP (fun c => c.status == "unresolved") = 0 →
      (zoneResult parse1 2764800 (13.09, 80.27) [toMember exC]).days_unresolved = 0) ∧
    ([toMember exC].countP (fun c => c.status == "unresolved") ≠ 0 →
      (∀ t, parse1 (oldestTs [toMember exC]) = some t →
        (zoneResult parse1 2764800 (13.09, 80.27) [toMember exC]).days_unresolved =
          max 0 ((2764800 - t).fdiv 86400)) ∧
      (parse1 (oldestTs [toMember exC]) = none →
        (zoneResult parse1 2764800 (13.09, 80.27) [toMember exC]).days_unresolved = 0)) ∧
    0 ≤ (zoneResult parse1 2764800 (13.09, 80.27) [toMember exC]).days_unresolved :=
  C5_days_unresolved parse1 2764800 (13.09, 80.27) [toMember exC] (by simp)

/-! ### C10 — deterministic tie-break (app.py lines 341-351, 384) -/

theorem insertGroup_keys (acc : List ((ℚ × ℚ) × List Member)) (k : ℚ × ℚ) (m : Member) :
    (insertGroup acc k m).map Prod.fst = addKey (acc.map Prod.fst) k := by
  induction acc with
  | nil => simp [insertGroup, addKey]
  | cons g rest ih =>
    rw [insertGroup_cons]
    unfold addKey
    by_cases hg : g.1 = k
    · simp [hg]
    · have hg' : ¬ k = g.1 := fun h => hg (Eq.symm h)
      rw [if_neg hg]
      simp only [List.map_cons, ih, addKey, List.mem_cons]
      by_cases hk : k ∈ rest.map Prod.fst
      · simp [hk, hg']
      · simp [hk, hg']

theorem groupZones_keys (records : List Complaint) :
    ∀ acc : List ((ℚ × ℚ) × List Member),
      (records.foldl (fun a r => insertGroup a (zoneKey r) (toMember r)) acc).map Prod.fst =
        firstOccsFrom (acc.map Prod.fst) (records.map zoneKey) := by
  induction records with
  | nil => intro acc; simp [firstOccsFrom]
  | cons r rs ih =>
    intro acc
    simp only [List.foldl_cons, List.map_cons]
    rw [ih, insertGroup_keys]
    rfl

/-- C10: ties in priority_score are resolved by input order: the unranked
zones list enumerates zone keys in order of first appearance in the record
sequence (insertion-ordered `defaultdict`), the sort is stable (zones of
equal score keep that relative order), and the final slice is a prefix of the
sorted list — so for a fixed input order the tie-break is deterministic. -/
theorem C10_tie_break (parse : String → Option ℤ) (now : ℤ) (records : List Complaint)
    (s : ℚ) (top : ℤ) :
    (zonesList parse now records).map (fun z => (z.latitude, z.longitude)) =
      firstOccs (records.map zoneKey) ∧
    (rankedZones parse now records).filter (fun z => decide (z.priority_score = s)) =
      (zonesList parse now records).filter (fun z => decide (z.priority_score = s)) ∧
    ∃ n : ℕ, pySlice (rankedZones parse now records) top =
      (rankedZones parse now records).take n := by
  refine ⟨?_, ?_, pySlice_eq_take _ _⟩
  · unfold zonesList groupZones firstOccs
    rw [List.map_map]
    have : ((fun z => (z.latitude, z.longitude)) ∘
        fun g : (ℚ × ℚ) × List Member => zoneResult parse now g.1 g.2) =
        Prod.fst := by
      funext g
      simp [zoneResult]
    rw [this, groupZones_keys]
    rfl
  · set p : ZoneResult → Bool := fun z => decide (z.priority_score = s) with hp
    have hpair : ((zonesList parse now records).filter p).Pairwise zoneGE := by
      apply List.pairwise_of_forall_mem_list
      intro a ha b hb
      have ha' := (List.mem_filter.mp ha).2
      have hb' := (List.mem_filter.mp hb).2
      rw [hp] at ha' hb'
      simp only [decide_eq_true_eq] at ha' hb'
      unfold zoneGE
      rw [ha', hb']
    have hsub : List.Sublist ((zonesList parse now records).filter p)
        (rankedZones parse now records) :=
      List.sublist_insertionSort hpair (List.filter_sublist _)
    have hsub2 : List.Sublist ((zonesList parse now records).filter p)
        ((rankedZones parse now records).filter p) := by
      have hidem : ((zonesList parse now records).filter p).filter p =
          (zonesList parse now records).filter p := by
        rw [List.filter_filter]
        apply List.filter_congr
        intro x _
        cases hpx : p x <;> simp [hpx]
      have hstep := hsub.filter p
      rwa [hidem] at hstep
    have hperm : ((rankedZones parse now records).filter p).Perm
        ((zonesList parse now records).filter p) :=
      (List.perm_insertionSort zoneGE (zonesList parse now records)).filter p
    exact (hsub2.eq_of_length hperm.length_eq.symm).symm

/-! ### DBSCAN degenerate-input lemmas -/

theorem getD_false_of_all (l : List Bool) (h : ∀ c ∈ l, c = false) :
    ∀ i : ℕ, l.getD i false = false := by
  induction l with
  | nil => intro i; simp [List.getD]
  | cons c cs ih =>
    intro i
    cases i with
    | zero => simpa using h c (List.mem_cons_self c cs)
    | succ j =>
      simp only [List.getD_cons_succ]
      exact ih (fun x hx => h x (List.mem_cons_of_mem c hx)) j

theorem foldl_dbscanStep_const (nb : List (List ℕ)) (core : List Bool)
    (hc : ∀ i : ℕ, core.getD i false = false) :
    ∀ (l : List ℕ) (st : List ℤ × ℕ), l.foldl (dbscanStep nb core) st = st := by
  intro l
  induction l with
  | nil => intro st; rfl
  | cons i is ih =>
    intro st
    have hstep : dbscanStep nb core st i = st := by
      unfold dbscanStep
      rw [hc i]
      simp
    simp only [List.foldl_cons, hstep, ih]

/-- With no core point, `dbscan_inner` leaves every label at `-1`. -/
theorem dbscanRun_noCore (nb : List (List ℕ)) (core : List Bool) (n : ℕ)
    (h : ∀ c ∈ core, c = false) :
    dbscanRun nb core n = List.replicate n (-1) := by
  unfold dbscanRun
  rw [foldl_dbscanStep_const nb core (getD_false_of_all core h)]

theorem nbrsOf_ok_len {dist : (ℚ × ℚ) → (ℚ × ℚ) → Except String ℚ}
    {pts : List (ℚ × ℚ)} {eps : ℚ} {nbl : List (List ℕ)}
    (h : nbrsOf dist pts eps = .ok nbl) :
    ∀ nl ∈ nbl, nl.length ≤ pts.length := by
  intro nl hnl
  obtain ⟨p, _, hp⟩ := mapME_ok_mem h nl hnl
  cases hds : mapME (dist p) pts with
  | error e => rw [hds] at hp; exact absurd hp (by simp)
  | ok ds =>
    rw [hds] at hp
    simp only [Except.ok.injEq] at hp
    rw [← hp]
    exact le_trans (withinIdx_length_le eps ds 0) (le_of_eq (mapME_ok_length hds))

/-- With fewer points than `min_samples`, a successful DBSCAN run labels
every point noise. -/
theorem dbscanE_small {dist : (ℚ × ℚ) → (ℚ × ℚ) → Except String ℚ}
    {pts : List (ℚ × ℚ)} {eps : ℚ} {minPts : ℕ} {labels : List ℤ}
    (hsmall : pts.length < minPts)
    (h : dbscanE dist pts eps minPts = .ok labels) :
    labels = List.replicate pts.length (-1) := by
  unfold dbscanE at h
  by_cases heps : eps ≤ 0
  · rw [if_pos heps] at h; exact absurd h (by simp)
  · rw [if_neg heps] at h
    by_cases hm : minPts = 0
    · rw [if_pos hm] at h; exact absurd h (by simp)
    · rw [if_neg hm] at h
      cases hnb : nbrsOf dist pts eps with
      | error e => rw [hnb] at h; exact absurd h (by simp)
      | ok nbl =>
        rw [hnb] at h
        simp only [Except.ok.injEq] at h
        have hcore : ∀ c ∈ nbl.map (fun nl => decide (minPts ≤ nl.length)), c = false := by
          intro c hc
          obtain ⟨nl, hnl, hcnl⟩ := List.mem_map.mp hc
          rw [← hcnl]
          simp only [decide_eq_false_iff_not, not_le]
          exact lt_of_le_of_lt (nbrsOf_ok_len hnb nl hnl) hsmall
        rw [← h, dbscanRun_noCore _ _ _ hcore]

/-! ### C7 — fewer than min_samples points (heatmap.py lines 28-35, 55-65) -/

/-- C7 (corrected): with fewer than `min_samples` points the call labels
every point noise and returns without raising; but the summary mapping is
empty only on the `len(df) < 2` early-return path (or when the internal
computation failed, with the warning flag set) — when `2 ≤ len(df) <
min_samples`, DBSCAN labels all points noise and the pandas `groupby` then
emits a single summary row keyed by the noise label `-1`, so the summary is
NOT empty: every summary key equals `-1`. -/
theorem C7_small_input (dist : (ℚ × ℚ) → (ℚ × ℚ) → Except String ℚ)
    (df : List Complaint) (eps : ℚ) (minPts : ℕ) (hsmall : df.length < minPts) :
    (∀ pr ∈ (cluster_complaints dist df eps minPts).1.1, pr.2 = -1) ∧
    (df.length < 2 →
      cluster_complaints dist df eps minPts = ((df.map fun c => (c, (-1 : ℤ)), ([] : List (ℤ × ClusterSummary))), false)) ∧
    (∀ pair ∈ (cluster_complaints dist df eps minPts).1.2, pair.1 = -1) := by
  by_cases hn : df.length < 2
  · have hinner : clusterInner dist df eps minPts = .ok (df.map (fun c => (c, -1)), []) := by
      unfold clusterInner
      rw [if_pos hn]
    have hcc : cluster_complaints dist df eps minPts = ((df.map fun c => (c, (-1 : ℤ)), ([] : List (ℤ × ClusterSummary))), false) := by
      unfold cluster_complaints
      rw [hinner]
    refine ⟨?_, fun _ => hcc, ?_⟩
    · intro pr hpr
      rw [hcc] at hpr
      obtain ⟨c, _, hc⟩ := List.mem_map.mp hpr
      rw [← hc]
    · intro pair hpair
      rw [hcc] at hpair
      exact absurd hpair (by simp)
  · cases hd : dbscanE dist (df.map fun c => (c.latitude, c.longitude)) eps minPts with
    | error e =>
      have hinner : clusterInner dist df eps minPts = .error e := by
        unfold clusterInner
        rw [if_neg hn, hd]
      have hcc : cluster_complaints dist df eps minPts =
          ((df.map fun c => (c, (-1 : ℤ)), ([] : List (ℤ × ClusterSummary))), true) := by
        unfold cluster_complaints
        rw [hinner]
      refine ⟨?_, fun h => absurd h hn, ?_⟩
      · intro pr hpr
        rw [hcc] at hpr
        obtain ⟨c, _, hc⟩ := List.mem_map.mp hpr
        rw [← hc]
      · intro pair hpair
        rw [hcc] at hpair
        exact absurd hpair (by simp)
    | ok labels =>
      have hlab : labels = List.replicate df.length (-1) := by
        have := dbscanE_small (by simpa using hsmall) hd
        simpa using this
      have hinner : clusterInner dist df eps minPts =
          .ok (df.zip labels, clusterStats (df.zip labels)) := by
        unfold clusterInner
        rw [if_neg hn, hd]
      have hcc : cluster_complaints dist df eps minPts =
          ((df.zip labels, clusterStats (df.zip labels)), false) := by
        unfold cluster_complaints
        rw [hinner]
      have hzip : ∀ pr ∈ df.zip labels, Prod.snd pr = (-1 : ℤ) := by
        intro pr hpr
        have hmem : pr.2 ∈ labels := (List.of_mem_zip hpr).2
        rw [hlab] at hmem
        exact List.eq_of_mem_replicate hmem
      refine ⟨?_, fun h => absurd h hn, ?_⟩
      · intro pr hpr
        rw [hcc] at hpr
        exact hzip pr hpr
      · intro pair hpair
        rw [hcc] at hpair
        simp only at hpair
        unfold clusterStats at hpair
        obtain ⟨l, hl, hpl⟩ := List.mem_map.mp hpair
        have hl2 : l ∈ firstOccs ((df.zip labels).map Prod.snd) :=
          (List.mem_insertionSort _).mp hl
        have hl3 : l ∈ (df.zip labels).map Prod.snd := (mem_firstOccs _ _).mp hl2
        obtain ⟨pr, hpr, hprl⟩ := List.mem_map.mp hl3
        have : pair.1 = l := by rw [← hpl]
        rw [this, ← hprl]
        exact hzip pr hpr

/-- C7 counterexample: two points with `min_samples = 3` (so fewer points
than `min_samples`): the returned summary mapping is not empty — it holds
the noise row.  On this input the result does not depend on the metric (no
point can have 3 neighbors), so the constant-zero stand-in metric is used. -/
theorem C7_counterexample :
    ([exA, exB].length < 3) ∧ (cluster_complaints dist0 [exA, exB] 1 3).1.2 ≠ [] := by
  constructor
  · norm_num
  · intro h
    revert h
    unfold cluster_complaints clusterInner dbscanE nbrsOf
    norm_num [mapME, dist0, withinIdx, dbscanRun, dbscanStep, clusterStats, firstOccs,
      firstOccsFrom, addKey, List.insertionSort, List.orderedInsert]

theorem C7_small_input_witness :
    (∀ pr ∈ (cluster_complaints dist0 [exA, exB] 2 4).1.1, pr.2 = -1) ∧
    ([exA, exB].length < 2 →
      cluster_complaints dist0 [exA, exB] 2 4 =
        (([exA, exB].map fun c => (c, (-1 : ℤ)), ([] : List (ℤ × ClusterSummary))), false)) ∧
    (∀ pair ∈ (cluster_complaints dist0 [exA, exB] 2 4).1.2, pair.1 = -1) :=
  C7_small_input dist0 [exA, exB] 2 4 (by norm_num)

/-- The `except` clause of `cluster_complaints`: an error from the body is
replaced by the all-noise labeling, empty stats and the warning flag. -/
theorem cluster_catch (dist : (ℚ × ℚ) → (ℚ × ℚ) → Except String ℚ)
    (df : List Complaint) (eps : ℚ) (minPts : ℕ) (e : String)
    (h : clusterInner dist df eps minPts = .error e) :
    cluster_complaints dist df eps minPts =
      ((df.map fun c => (c, (-1 : ℤ)), ([] : List (ℤ × ClusterSummary))), true) := by
  unfold cluster_complaints
  rw [h]

/-! ### C8 — graceful degradation on internal failure (heatmap.py lines 67-74) -/

/-- C8: whenever the body of the `try:` block (the internal clustering
computation) raises, `cluster_complaints` still returns: every point is
labeled noise `-1`, the summary is empty, and the warning flag (`st.warning`)
is set instead of the exception propagating. -/
theorem C8_catch_all (dist : (ℚ × ℚ) → (ℚ × ℚ) → Except String ℚ)
    (df : List Complaint) (eps : ℚ) (minPts : ℕ) (e : String)
    (h : clusterInner dist df eps minPts = .error e) :
    cluster_complaints dist df eps minPts =
      ((df.map fun c => (c, (-1 : ℤ)), ([] : List (ℤ × ClusterSummary))), true) :=
  cluster_catch dist df eps minPts e h

theorem C8_catch_all_witness :
    cluster_complaints distErr [exA, exB] 1 2 =
      (([exA, exB].map fun c => (c, (-1 : ℤ)), ([] : List (ℤ × ClusterSummary))), true) :=
  C8_catch_all distErr [exA, exB] 1 2 "numerical instability" (by
    unfold clusterInner dbscanE nbrsOf
    norm_num [mapME, distErr])

/-! ### C9 — the noise label in the summary (heatmap.py lines 55-65) -/

theorem clusterStats_mem_iff (dfc : List (Complaint × ℤ)) (l : ℤ) (s : ClusterSummary) :
    ((l, s) ∈ clusterStats dfc) ↔ (l ∈ dfc.map Prod.snd ∧ s = summaryAt dfc l) := by
  unfold clusterStats
  rw [List.mem_map]
  constructor
  · rintro ⟨k, hk, hks⟩
    rw [Prod.mk.injEq] at hks
    obtain ⟨hk1, hk2⟩ := hks
    subst hk1
    exact ⟨(mem_firstOccs _ _).mp ((List.mem_insertionSort _).mp hk), hk2.symm⟩
  · rintro ⟨hl, hs⟩
    exact ⟨l, (List.mem_insertionSort _).mpr ((mem_firstOccs _ _).mpr hl), by rw [hs]⟩

theorem summaryAt_filter_noise (dfc : List (Complaint × ℤ)) (l : ℤ) (hl : l ≠ -1) :
    summaryAt (dfc.filter fun x => decide (x.2 ≠ -1)) l = summaryAt dfc l := by
  unfold summaryAt
  have hfil : (dfc.filter fun x => decide (x.2 ≠ -1)).filter (fun x => decide (x.2 = l)) =
      dfc.filter (fun x => decide (x.2 = l)) := by
    rw [List.filter_filter]
    apply List.filter_congr
    intro x _
    by_cases hx : x.2 = l
    · simp [hx, hl]
    · simp [hx]
  rw [hfil]

/-- C9 (corrected): the summary mapping returned by the code is the pandas
`groupby('cluster')` table, which DOES contain an entry for the noise label
`-1` exactly when some point is labeled noise.  What does hold: noise points
contribute to no other cluster's aggregate statistics — every non-noise entry
of the summary is unchanged when all noise points are removed first. -/
theorem C9_noise_in_summary (dfc : List (Complaint × ℤ)) :
    (((-1 : ℤ) ∈ (clusterStats dfc).map Prod.fst) ↔ ((-1 : ℤ) ∈ dfc.map Prod.snd)) ∧
    (∀ (l : ℤ) (s : ClusterSummary), l ≠ -1 →
      (((l, s) ∈ clusterStats dfc) ↔
        ((l, s) ∈ clusterStats (dfc.filter fun x => decide (x.2 ≠ -1))))) := by
  constructor
  · unfold clusterStats
    rw [List.map_map]
    have hcomp : (Prod.fst ∘ fun l : ℤ => (l, summaryAt dfc l)) = id := by
      funext k
      rfl
    rw [hcomp, List.map_id]
    constructor
    · intro h
      exact (mem_firstOccs _ _).mp ((List.mem_insertionSort _).mp h)
    · intro h
      exact (List.mem_insertionSort _).mpr ((mem_firstOccs _ _).mpr h)
  · intro l s hl
    rw [clusterStats_mem_iff, clusterStats_mem_iff, summaryAt_filter_noise dfc l hl]
    have hmem : (l ∈ (dfc.filter fun x => decide (x.2 ≠ -1)).map Prod.snd) ↔
        (l ∈ dfc.map Prod.snd) := by
      rw [List.mem_map, List.mem_map]
      constructor
      · rintro ⟨x, hx, hxl⟩
        exact ⟨x, (List.mem_filter.mp hx).1, hxl⟩
      · rintro ⟨x, hx, hxl⟩
        refine ⟨x, List.mem_filter.mpr ⟨hx, ?_⟩, hxl⟩
        simp only [decide_eq_true_eq]
        rw [hxl]
        exact hl
    rw [hmem]

/-- C9 counterexample: a run of the clustering operation (two points,
`min_samples = 3`, so both points end up noise; the outcome is
metric-independent) whose returned summary mapping DOES contain an entry
keyed by the noise label `-1`. -/
theorem C9_counterexample :
    (-1 : ℤ) ∈ ((cluster_complaints dist0 [exA, exB] 1 3).1.2).map Prod.fst := by
  unfold cluster_complaints clusterInner dbscanE nbrsOf
  norm_num [mapME, dist0, withinIdx, dbscanRun, dbscanStep, clusterStats, firstOccs,
    firstOccsFrom, addKey, List.insertionSort, List.orderedInsert]

theorem C9_noise_in_summary_witness :
    ((((-1 : ℤ) ∈ (clusterStats [(exA, 0), (exC, -1)]).map Prod.fst) ↔
      ((-1 : ℤ) ∈ ([(exA, 0), (exC, -1)] : List (Complaint × ℤ)).map Prod.snd))) ∧
    (((0 : ℤ), summaryAt [(exA, 0), (exC, -1)] 0) ∈ clusterStats [(exA, 0), (exC, -1)] ↔
      ((0 : ℤ), summaryAt [(exA, 0), (exC, -1)] 0) ∈
        clusterStats (([(exA, 0), (exC, -1)] : List (Complaint × ℤ)).filter
          fun x => decide (x.2 ≠ -1))) :=
  ⟨(C9_noise_in_summary [(exA, 0), (exC, -1)]).1,
   (C9_noise_in_summary [(exA, 0), (exC, -1)]).2 0 (summaryAt [(exA, 0), (exC, -1)] 0)
     (by norm_num)⟩

/-! ### C4 — no fail-fast parameter validation (app.py 385-386, heatmap.py 25-41) -/

/-- C4 (corrected): neither operation validates its parameters at the call
boundary.  `rank_zones` with any `top_n < 1` still answers success with the
Python-sliced list (empty for `top_n = 0`); `cluster_complaints` with
non-positive `eps` or `min_samples` and at least two points forwards them to
the clustering library, whose `ValueError` is caught by the blanket `except`
and converted to an all-noise result with a warning — the call still returns
successfully (and with fewer than two points the parameters are never
checked at all, a case covered by `C7_small_input`). -/
theorem C4_no_validation :
    (∀ (parse : String → Option ℤ) (now : ℤ) (records : List Complaint) (top : ℤ),
      top < 1 →
      priorityZonesHandler parse now records top =
        .ok (pySlice (rankedZones parse now records) top)) ∧
    (∀ (dist : (ℚ × ℚ) → (ℚ × ℚ) → Except String ℚ) (df : List Complaint)
        (eps : ℚ) (minPts : ℕ), 2 ≤ df.length → (eps ≤ 0 ∨ minPts = 0) →
      cluster_complaints dist df eps minPts =
        ((df.map fun c => (c, (-1 : ℤ)), ([] : List (ℤ × ClusterSummary))), true)) := by
  constructor
  · intro parse now records top _
    rfl
  · intro dist df eps minPts hlen hbad
    have hn : ¬ df.length < 2 := by omega
    have herr : ∃ e, dbscanE dist (df.map fun c => (c.latitude, c.longitude)) eps minPts =
        .error e := by
      unfold dbscanE
      rcases hbad with heps | hm
      · exact ⟨"eps must be positive", by rw [if_pos heps]⟩
      · by_cases heps : eps ≤ 0
        · exact ⟨"eps must be positive", by rw [if_pos heps]⟩
        · exact ⟨"min_samples must be positive", by rw [if_neg heps, if_pos hm]⟩
    obtain ⟨e, he⟩ := herr
    have hinner : clusterInner dist df eps minPts = .error e := by
      unfold clusterInner
      rw [if_neg hn, he]
    exact cluster_catch dist df eps minPts e hinner

/-- C4 counterexample: `top_n = 0` answers success with the empty list
instead of failing, and `eps = 0` with two points answers success (all noise,
warning set) instead of failing with a validation error. -/
theorem C4_counterexample :
    priorityZonesHandler parse0 0 [exA] 0 = .ok [] ∧
    cluster_complaints dist0 [exA, exB] 0 2 =
      (([exA, exB].map fun c => (c, (-1 : ℤ)), ([] : List (ℤ × ClusterSummary))), true) := by
  constructor
  · unfold priorityZonesHandler pySlice
    norm_num
  · have hinner : clusterInner dist0 [exA, exB] 0 2 = .error "eps must be positive" := by
      unfold clusterInner dbscanE
      norm_num
    exact cluster_catch dist0 [exA, exB] 0 2 "eps must be positive" hinner

theorem C4_no_validation_witness :
    priorityZonesHandler parse1 0 [exB] (-1) =
      .ok (pySlice (rankedZones parse1 0 [exB]) (-1)) ∧
    cluster_complaints distErr [exA, exB] 1 0 =
      (([exA, exB].map fun c => (c, (-1 : ℤ)), ([] : List (ℤ × ClusterSummary))), true) :=
  ⟨C4_no_validation.1 parse1 0 [exB] (-1) (by norm_num),
   C4_no_validation.2 distErr [exA, exB] 1 0 (by norm_num) (Or.inr rfl)⟩

end FixMyCity
